import Mathlib

/-!
Verification development for the stream/ensemble/chained-log core:
CircuitBreaker and StreamManager (src/streams/stream_manager.py),
ModelClient (src/llm/model_client.py), LLMOrchestrator (src/llm/orchestrator.py)
and MerkleLogger (src/storage/merkle_logger.py), shallowly embedded in Lean.
Bytes are `List Nat` (each < 256), wall-clock time and latencies are `ℚ`
(exact model of the float arithmetic at the inputs used), and the digest
function is a full executable SHA-256.
-/

set_option maxRecDepth 10000

/-! ## SHA-256 over byte lists -/

/-- Truncate to a 32-bit word, as the Python `hashlib` arithmetic does. -/
def w32 (n : Nat) : Nat := n % 4294967296

/-- Right rotation of a 32-bit word. -/
def rotr (n x : Nat) : Nat := w32 ((x >>> n) ||| (x <<< (32 - n)))

/-- Bitwise complement within 32 bits. -/
def not32 (x : Nat) : Nat := x ^^^ 4294967295

/-- The 64 SHA-256 round constants of FIPS 180-4 (decimal rendering of
0x428a2f98, 0x71374491, ..., 0xc67178f2). -/
def sha256K : List Nat :=
  [1116352408, 1899447441, 3049323471, 3921009573, 961987163,
   1508970993, 2453635748, 2870763221, 3624381080, 310598401,
   607225278, 1426881987, 1925078388, 2162078206, 2614888103,
   3248222580, 3835390401, 4022224774, 264347078, 604807628,
   770255983, 1249150122, 1555081692, 1996064986, 2554220882,
   2821834349, 2952996808, 3210313671, 3336571891, 3584528711,
   113926993, 338241895, 666307205, 773529912, 1294757372,
   1396182291, 1695183700, 1986661051, 2177026350, 2456956037,
   2730485921, 2820302411, 3259730800, 3345764771, 3516065817,
   3600352804, 4094571909, 275423344, 430227734, 506948616,
   659060556, 883997877, 958139571, 1322822218, 1537002063,
   1747873779, 1955562222, 2024104815, 2227730452, 2361852424,
   2428436474, 2756734187, 3204031479, 3329325298]

/-- The eight SHA-256 initial hash values of FIPS 180-4 (decimal rendering
of 0x6a09e667, ..., 0x5be0cd19). -/
def sha256H0 : List Nat :=
  [1779033703, 3144134277, 1013904242, 2773480762,
   1359893119, 2600822924, 528734635, 1541459225]

/-- Big-endian 64-bit encoding of the message bit length. -/
def be64 (n : Nat) : List Nat :=
  let m := n % 18446744073709551616
  [(m >>> 56) % 256, (m >>> 48) % 256, (m >>> 40) % 256, (m >>> 32) % 256,
   (m >>> 24) % 256, (m >>> 16) % 256, (m >>> 8) % 256, m % 256]

/-- SHA-256 padding: append 0x80, zero fill to 56 mod 64, then the bit length. -/
def sha256pad (msg : List Nat) : List Nat :=
  let L := msg.length
  let k := (119 - (L % 64)) % 64
  msg ++ [0x80] ++ List.replicate k 0 ++ be64 (8 * L)

/-- Split a byte list into 64-byte chunks (the input is padded, so every
chunk is full). -/
def chunks64 (bs : List Nat) : List (List Nat) :=
  go bs.length bs
where
  go : Nat → List Nat → List (List Nat)
    | 0, _ => []
    | _ + 1, [] => []
    | fuel + 1, b :: rest =>
      (b :: rest).take 64 :: go fuel ((b :: rest).drop 64)

/-- The 16 initial 32-bit message-schedule words of one chunk (big endian). -/
def chunkWords (chunk : List Nat) : List Nat :=
  (List.range 16).map fun i =>
    (chunk.getD (4 * i) 0) * 16777216 + (chunk.getD (4 * i + 1) 0) * 65536 +
    (chunk.getD (4 * i + 2) 0) * 256 + chunk.getD (4 * i + 3) 0

def ssig0 (x : Nat) : Nat := (rotr 7 x) ^^^ (rotr 18 x) ^^^ (x >>> 3)
def ssig1 (x : Nat) : Nat := (rotr 17 x) ^^^ (rotr 19 x) ^^^ (x >>> 10)
def bsig0 (x : Nat) : Nat := (rotr 2 x) ^^^ (rotr 13 x) ^^^ (rotr 22 x)
def bsig1 (x : Nat) : Nat := (rotr 6 x) ^^^ (rotr 11 x) ^^^ (rotr 25 x)

/-- Extend the message schedule; the accumulator is kept reversed (newest
word first) so the references W[i-2], W[i-7], W[i-15], W[i-16] are lookups
at positions 1, 6, 14, 15. -/
def extendW : Nat → List Nat → List Nat
  | 0, acc => acc
  | fuel + 1, acc =>
    extendW fuel
      (w32 (ssig1 (acc.getD 1 0) + acc.getD 6 0 + ssig0 (acc.getD 14 0) +
        acc.getD 15 0) :: acc)

def schedule (chunk : List Nat) : List Nat :=
  (extendW 48 (chunkWords chunk).reverse).reverse

/-- One SHA-256 compression step over state (a,b,c,d,e,f,g,h). -/
def sha256step (st : Nat × Nat × Nat × Nat × Nat × Nat × Nat × Nat)
    (kw : Nat × Nat) : Nat × Nat × Nat × Nat × Nat × Nat × Nat × Nat :=
  let (a, b, c, d, e, f, g, h) := st
  let (k, w) := kw
  let t1 := w32 (h + bsig1 e + ((e &&& f) ^^^ ((not32 e) &&& g)) + k + w)
  let t2 := w32 (bsig0 a + ((a &&& b) ^^^ (a &&& c) ^^^ (b &&& c)))
  (w32 (t1 + t2), a, b, c, w32 (d + t1), e, f, g)

/-- Compress one 64-byte chunk into the running hash state. -/
def sha256compress (hs : List Nat) (chunk : List Nat) : List Nat :=
  let h0 := hs.getD 0 0
  let h1 := hs.getD 1 0
  let h2 := hs.getD 2 0
  let h3 := hs.getD 3 0
  let h4 := hs.getD 4 0
  let h5 := hs.getD 5 0
  let h6 := hs.getD 6 0
  let h7 := hs.getD 7 0
  let (a, b, c, d, e, f, g, h) :=
    (List.zip sha256K (schedule chunk)).foldl sha256step
      (h0, h1, h2, h3, h4, h5, h6, h7)
  [w32 (h0 + a), w32 (h1 + b), w32 (h2 + c), w32 (h3 + d),
   w32 (h4 + e), w32 (h5 + f), w32 (h6 + g), w32 (h7 + h)]

/-- SHA-256 digest of a byte list, as the eight 32-bit state words. -/
def sha256words (msg : List Nat) : List Nat :=
  (chunks64 (sha256pad msg)).foldl sha256compress sha256H0

def hexDigit (d : Nat) : Char := "0123456789abcdef".toList.getD d '0'

/-- Fixed-width lowercase hex rendering of a word. -/
def toHex : Nat → Nat → List Char
  | 0, _ => []
  | width + 1, n => toHex width (n / 16) ++ [hexDigit (n % 16)]

/-- Hex digest as `hashlib.sha256(msg).hexdigest()` returns it: 64 lowercase hex characters. -/
def sha256hex (msg : List Nat) : String :=
  ⟨(sha256words msg).foldr (fun w acc => toHex 8 w ++ acc) []⟩

/-! ## UTF-8 encoding (`str.encode("utf-8")`) -/

def utf8Char (c : Char) : List Nat :=
  let n := c.toNat
  if n < 128 then [n]
  else if n < 2048 then [192 + n / 64, 128 + n % 64]
  else if n < 65536 then [224 + n / 4096, 128 + (n / 64) % 64, 128 + n % 64]
  else [240 + n / 262144, 128 + (n / 4096) % 64, 128 + (n / 64) % 64,
        128 + n % 64]

def utf8 (s : String) : List Nat := s.data.foldr (fun c acc => utf8Char c ++ acc) []

example : sha256hex (utf8 "") =
    "e3b0c44298fc1c149afbf4c8996fb92427ae41e4649b934ca495991b7852b855" := by
  decide

example : sha256hex (utf8 "abc") =
    "ba7816bf8f01cfea414140de5dae2223b00361a396177a9cb410ff61f20015ad" := by
  decide

/-! ## JSON values and `json.dumps(payload, sort_keys=True)` -/

inductive Json where
  | null
  | bool (b : Bool)
  | num (n : Int)
  | str (s : String)
  | arr (xs : List Json)
  | obj (kvs : List (String × Json))

/-- One character of `json.dumps` ASCII string escaping: `"` and `\` and the
short control escapes, `\uXXXX` for other characters outside 0x20..0x7e. -/
def jsonEscapeChar (c : Char) : List Char :=
  if c = '"' then ['\\', '"']
  else if c = '\\' then ['\\', '\\']
  else if c = '\x08' then ['\\', 'b']
  else if c = '\x0c' then ['\\', 'f']
  else if c = '\n' then ['\\', 'n']
  else if c = '\r' then ['\\', 'r']
  else if c = '\t' then ['\\', 't']
  else if 32 ≤ c.toNat && c.toNat ≤ 126 then [c]
  else if c.toNat < 65536 then '\\' :: 'u' :: toHex 4 c.toNat
  else
    let n := c.toNat - 65536
    ('\\' :: 'u' :: toHex 4 (55296 + n / 1024)) ++
      ('\\' :: 'u' :: toHex 4 (56320 + n % 1024))

def jsonQuote (s : String) : String :=
  ⟨'"' :: s.data.foldr (fun c acc => jsonEscapeChar c ++ acc) ['"']⟩

/-- Lexicographic comparison of character lists by Unicode code point —
exactly how Python compares `str` keys in `sorted`. -/
def charListLt : List Char → List Char → Bool
  | [], [] => false
  | [], _ :: _ => true
  | _ :: _, [] => false
  | a :: as, b :: bs =>
    if a.toNat < b.toNat then true
    else if b.toNat < a.toNat then false
    else charListLt as bs

def strLt (a b : String) : Bool := charListLt a.data b.data

/-- Stable insertion of a key-value pair into a key-sorted association list
(keys compared as Python compares `str`: by Unicode code point). -/
def insertPair (p : String × Json) :
    List (String × Json) → List (String × Json)
  | [] => [p]
  | q :: rest => if strLt p.1 q.1 then p :: q :: rest else q :: insertPair p rest

def sortPairsByKey (kvs : List (String × Json)) : List (String × Json) :=
  kvs.foldr insertPair []

mutual
/-- Recursively put every object's keys in ascending order (the effect of
`sort_keys=True` at every nesting level). -/
def sortJson : Json → Json
  | .obj kvs => .obj (sortPairsByKey (sortJsonPairs kvs))
  | .arr xs => .arr (sortJsonList xs)
  | j => j

def sortJsonList : List Json → List Json
  | [] => []
  | x :: xs => sortJson x :: sortJsonList xs

def sortJsonPairs : List (String × Json) → List (String × Json)
  | [] => []
  | (k, v) :: xs => (k, sortJson v) :: sortJsonPairs xs
end

mutual
/-- Serialization of an (already key-sorted) value with the `json.dumps`
default separators. -/
def dumpJson : Json → String
  | .null => "null"
  | .bool true => "true"
  | .bool false => "false"
  | .num n => toString n
  | .str s => jsonQuote s
  | .arr xs => "[" ++ dumpJsonList xs ++ "]"
  | .obj kvs => "\x7b" ++ dumpJsonPairs kvs ++ "\x7d"

def dumpJsonList : List Json → String
  | [] => ""
  | [x] => dumpJson x
  | x :: y :: rest => dumpJson x ++ ", " ++ dumpJsonList (y :: rest)

def dumpJsonPairs : List (String × Json) → String
  | [] => ""
  | [(k, v)] => jsonQuote k ++ ": " ++ dumpJson v
  | (k, v) :: q :: rest =>
    jsonQuote k ++ ": " ++ dumpJson v ++ ", " ++ dumpJsonPairs (q :: rest)
end

/-- Python `json.dumps(j, sort_keys=True)`. -/
def json_dumps_sorted (j : Json) : String := dumpJson (sortJson j)

/-! ## MerkleLogger (src/storage/merkle_logger.py)

The directory `base_path` is modelled as the list of its `*.json` files in
modification-time order (oldest first); rewriting an existing file refreshes
its mtime, i.e. moves it to the end. The wall clock read by
`datetime.utcnow().isoformat()` inside `log_round` is an explicit `now_iso`
argument, and the possibility that `path.write_bytes` raises is an explicit
`write_ok` argument: when the write raises, `log_round` ends in the
exception (`Except.error`) with every state change made before the write
kept, exactly as in Python. -/

structure MerkleLogger where
  files : List (String × List Nat)
  _current_root : String
deriving DecidableEq, Repr

/-- A fresh `MerkleLogger(base_path)`: empty directory, `_current_root = ""`. -/
def MerkleLogger.init : MerkleLogger := ⟨[], ""⟩

def _combine_hash (left right : String) : String :=
  sha256hex (utf8 (left ++ right))

/-- The payload dict built at the top of `log_round` (`context` is already
the JSON image of `getattr(context, "__dict__", context)`). -/
def roundPayload (now_iso : String) (context : Json) (results : List Json) :
    Json :=
  .obj [("timestamp", .str now_iso), ("context", context),
        ("results", .arr results)]

/-- Keep the newest `cap` files: delete `max(len - cap, 0)` oldest ones
(`Nat` subtraction is already floored at zero). -/
def _prune_archives (cap : Nat) (files : List (String × List Nat)) :
    List (String × List Nat) :=
  files.drop (files.length - cap)

/-- Python `_write_file`: `path.write_bytes(blob)` then `_prune_archives()`; an existing file of
the same name is overwritten (its mtime moves to now), then the cap is
enforced. -/
def _write_file (cap : Nat) (files : List (String × List Nat))
    (digest : String) (blob : List Nat) : List (String × List Nat) :=
  _prune_archives cap (files.filter (fun f => f.1 ≠ digest) ++ [(digest, blob)])

def MerkleLogger.log_round (cap : Nat) (st : MerkleLogger) (now_iso : String)
    (context : Json) (results : List Json) (write_ok : Bool) :
    MerkleLogger × Except Unit String :=
  let blob := utf8 (json_dumps_sorted (roundPayload now_iso context results))
  let digest := sha256hex blob
  let root := _combine_hash st._current_root digest
  let st' : MerkleLogger := { st with _current_root := root }
  if write_ok then
    ({ st' with files := _write_file cap st'.files digest blob }, .ok root)
  else (st', .error ())

def MerkleLogger.get_current_root (st : MerkleLogger) : String :=
  st._current_root

/-- Log a list of rounds (all writes succeeding), oldest first. -/
def MerkleLogger.log_rounds (cap : Nat) (st : MerkleLogger)
    (rounds : List (String × Json × List Json)) : MerkleLogger :=
  rounds.foldl (fun s r => (MerkleLogger.log_round cap s r.1 r.2.1 r.2.2 true).1) st

/-- Serialized bytes of one round's payload. -/
def roundBlob (r : String × Json × List Json) : List Nat :=
  utf8 (json_dumps_sorted (roundPayload r.1 r.2.1 r.2.2))

/-- Content hash (= persisted file name, sans `.json`) of one round. -/
def roundDigest (r : String × Json × List Json) : String :=
  sha256hex (roundBlob r)

/-- The directory entry `log_round` persists for one round. -/
def roundEntry (r : String × Json × List Json) : String × List Nat :=
  (roundDigest r, roundBlob r)

/-! ## CircuitBreaker (src/streams/stream_manager.py)

`time.time()` is an explicit `now : ℚ` argument of the operations that read
it; the state strings "CLOSED"/"OPEN"/"HALF_OPEN" are an inductive type. -/

inductive CBState where
  | CLOSED
  | OPEN
  | HALF_OPEN
deriving DecidableEq, Repr

structure CircuitBreaker where
  max_failures : Nat
  timeout : ℚ
  failures : Nat
  last_failure : ℚ
  state : CBState
deriving DecidableEq, Repr

/-- Fresh `CircuitBreaker(max_failures, timeout)`. -/
def CircuitBreaker.init (max_failures : Nat) (timeout : ℚ) : CircuitBreaker :=
  ⟨max_failures, timeout, 0, 0, .CLOSED⟩

/-- The source `can_execute` both answers and (in the OPEN branch) mutates the breaker. -/
def CircuitBreaker.can_execute (now : ℚ) (b : CircuitBreaker) :
    Bool × CircuitBreaker :=
  if b.state = .OPEN then
    if now - b.last_failure > b.timeout then
      (true, { b with state := .HALF_OPEN })
    else (false, b)
  else (true, b)

def CircuitBreaker.on_success (b : CircuitBreaker) : CircuitBreaker :=
  { b with state := .CLOSED, failures := 0 }

def CircuitBreaker.on_failure (now : ℚ) (b : CircuitBreaker) : CircuitBreaker :=
  let b' := { b with failures := b.failures + 1, last_failure := now }
  if b'.failures ≥ b'.max_failures then { b' with state := .OPEN } else b'

/-- A sequence of `on_failure` calls at the given times, oldest first. -/
def CircuitBreaker.fail_seq (b : CircuitBreaker) (ts : List ℚ) :
    CircuitBreaker :=
  ts.foldl (fun s t => CircuitBreaker.on_failure t s) b

/-! ## StreamManager health snapshot (src/streams/stream_manager.py) -/

structure StreamHealth where
  last_message : ℚ
  message_count : Nat
  error_count : Nat
  reconnect_count : Nat
  total_downtime : ℚ
deriving DecidableEq, Repr

def StreamHealth.init : StreamHealth := ⟨0, 0, 0, 0, 0⟩

structure StreamManager where
  health : StreamHealth
  circuit_breaker : CircuitBreaker
deriving DecidableEq, Repr

/-- The dict returned by `get_health_metrics`. -/
structure HealthMetrics where
  message_count : Nat
  error_count : Nat
  reconnect_count : Nat
  current_downtime : ℚ
  total_downtime : ℚ
  circuit_breaker_state : CBState
deriving DecidableEq, Repr

/-- The source `get_health_metrics` returns the metrics dict and the StreamManager as
it is left after the call (the source adds the freshly computed downtime to
`self.health.total_downtime` whenever `last_message` is truthy). -/
def StreamManager.get_health_metrics (now : ℚ) (sm : StreamManager) :
    HealthMetrics × StreamManager :=
  if sm.health.last_message ≠ 0 then
    let downtime := max 0 (now - sm.health.last_message - 30)
    let health' :=
      { sm.health with total_downtime := sm.health.total_downtime + downtime }
    (⟨health'.message_count, health'.error_count, health'.reconnect_count,
      downtime, health'.total_downtime, sm.circuit_breaker.state⟩,
     { sm with health := health' })
  else
    (⟨sm.health.message_count, sm.health.error_count,
      sm.health.reconnect_count, 0, sm.health.total_downtime,
      sm.circuit_breaker.state⟩, sm)

/-! ## ModelClient (src/llm/model_client.py)

Latencies are `ℚ`. A call to `generate` is driven by the scripted outcomes
of its successive HTTP attempts: `some (text, latency)` for a 2xx response,
`none` for any raised failure (network error, non-2xx, timeout). The
`retries` argument is the loop counter (0 at the first attempt). The source
loop always ends within `max_retries + 1` attempts — in success or in the
re-raised exception — so an empty script (returning the exception) is only
reached on scripts shorter than the loop needs. -/

structure ModelResponse where
  text : String
  latency_ms : ℚ
deriving DecidableEq, Repr

structure ModelClient where
  name : String
  total_calls : Nat
  error_count : Nat
  successful_calls : Nat
  avg_latency : ℚ
deriving DecidableEq, Repr

/-- Fresh `ModelClient(name, url)`: counters start at zero. -/
def ModelClient.init (name : String) : ModelClient := ⟨name, 0, 0, 0, 0⟩

/-- Python `_update_latency`: note the source runs this BEFORE incrementing
`successful_calls`, so `self.successful_calls` here is the count of earlier
successes, not including the one being recorded. -/
def ModelClient._update_latency (c : ModelClient) (latest_latency : ℚ) :
    ModelClient :=
  { c with avg_latency :=
      (c.avg_latency * ((c.successful_calls : ℚ) - 1) + latest_latency) /
        ((max c.successful_calls 1 : Nat) : ℚ) }

def ModelClient.generate (max_retries : Nat) :
    ModelClient → Nat → List (Option (String × ℚ)) →
      ModelClient × Except Unit ModelResponse
  | c, _, [] => (c, .error ())
  | c, retries, a :: rest =>
    let c1 := { c with total_calls := c.total_calls + 1 }
    match a with
    | some (text, lat) =>
      let c2 := ModelClient._update_latency c1 lat
      let c3 := { c2 with successful_calls := c2.successful_calls + 1 }
      (c3, .ok ⟨text, lat⟩)
    | none =>
      let c2 := { c1 with error_count := c1.error_count + 1 }
      if retries ≥ max_retries then (c2, .error ())
      else ModelClient.generate max_retries c2 (retries + 1) rest

/-! ## LLMOrchestrator.execute_round (src/llm/orchestrator.py)

The round's concurrency is resolved into data: `completed[i]` is what
client `i`'s `generate` task had produced by the 120 s deadline — `some
(.ok resp)` or `some (.exn ...)` if it finished, `none` if still pending.
`asyncio.wait_for` raises `TimeoutError` exactly when some task is still
pending at the deadline, and the source then replaces the whole response
list by `[None] * len(tasks)`; otherwise `gather(..., return_exceptions=
True)` delivers each task's own outcome. -/

structure RoundResult where
  model : String
  text : String
  lat_ms : ℚ
  error : String
  success : Bool
deriving DecidableEq, Repr

inductive TaskOutcome where
  | ok (response : ModelResponse)
  | exn (ename emsg : String)
deriving DecidableEq, Repr

def _handle_error (model_name : String) (ename emsg : String) : RoundResult :=
  ⟨model_name, "ERROR: " ++ ename ++ ": " ++ emsg, 0, emsg, false⟩

def _handle_timeout (model_name : String) : RoundResult :=
  ⟨model_name, "ERROR: Request timeout", 0, "timeout", false⟩

def _process_successful_response (model_name : String) (r : ModelResponse) :
    RoundResult :=
  ⟨model_name, r.text, r.latency_ms, "", true⟩

/-- The per-client classification in `execute_round`'s result loop
(`isinstance(response, Exception)` first, then `response is None`, then
success). -/
def classifyResponse (n : String) : Option TaskOutcome → RoundResult
  | some (.exn en em) => _handle_error n en em
  | none => _handle_timeout n
  | some (.ok r) => _process_successful_response n r

/-- The result list `execute_round` returns, given the configured client
names and each client task's outcome by the deadline. -/
def execute_round (names : List String)
    (completed : List (Option TaskOutcome)) : List RoundResult :=
  let responses :=
    if completed.any (fun r => r.isNone) then
      List.replicate names.length (none : Option TaskOutcome)
    else completed
  (names.zip responses).map fun p => classifyResponse p.1 p.2

/-! ## Concrete demonstration rounds

Two rounds with the same logical content `(context, results)` whose
`log_round` calls happen one second apart. -/

def demoRound1 : String × Json × List Json :=
  ("2024-01-01T00:00:00", Json.str "c", [])

def demoRound2 : String × Json × List Json :=
  ("2024-01-01T00:00:01", Json.str "c", [])

def demoRounds : List (String × Json × List Json) := [demoRound1, demoRound2]

/-- The chain root as a pure accumulator over the logged records. -/
def chainRoot (rounds : List (String × Json × List Json)) : String :=
  rounds.foldl (fun root r => _combine_hash root (roundDigest r)) ""

/-! ## Lemmas about MerkleLogger -/

lemma log_round_fst (cap : Nat) (st : MerkleLogger) (now_iso : String)
    (context : Json) (results : List Json) :
    (MerkleLogger.log_round cap st now_iso context results true).1 =
      ⟨_write_file cap st.files (roundDigest (now_iso, context, results))
         (roundBlob (now_iso, context, results)),
       _combine_hash st._current_root (roundDigest (now_iso, context, results))⟩ :=
  rfl

lemma log_rounds_cons (cap : Nat) (st : MerkleLogger)
    (r : String × Json × List Json) (rs : List (String × Json × List Json)) :
    MerkleLogger.log_rounds cap st (r :: rs) =
      MerkleLogger.log_rounds cap
        (MerkleLogger.log_round cap st r.1 r.2.1 r.2.2 true).1 rs :=
  rfl

lemma log_rounds_root (cap : Nat) :
    ∀ (rounds : List (String × Json × List Json)) (st : MerkleLogger),
      (MerkleLogger.log_rounds cap st rounds)._current_root =
        rounds.foldl (fun root r => _combine_hash root (roundDigest r))
          st._current_root
  | [], _ => rfl
  | r :: rs, st => by
    rw [log_rounds_cons, log_rounds_root cap rs, log_round_fst]
    rfl

lemma log_round_files_le (cap : Nat) (st : MerkleLogger) (now_iso : String)
    (context : Json) (results : List Json) :
    ((MerkleLogger.log_round cap st now_iso context results true).1).files.length ≤
      cap := by
  rw [log_round_fst]
  simp only [_write_file, _prune_archives, List.length_drop]
  omega

lemma log_rounds_files (cap : Nat) :
    ∀ (rounds : List (String × Json × List Json))
      (E : List (String × List Nat)) (root : String),
      (rounds.map roundDigest).Nodup →
      (∀ d ∈ rounds.map roundDigest, d ∉ E.map Prod.fst) →
      (MerkleLogger.log_rounds cap ⟨E.drop (E.length - cap), root⟩ rounds).files =
        (E ++ rounds.map roundEntry).drop (E.length + rounds.length - cap)
  | [], E, root, _, _ => by
    simp [MerkleLogger.log_rounds]
  | r :: rs, E, root, hnd, hfresh => by
    rw [log_rounds_cons, log_round_fst]
    have hdig : roundDigest (r.1, r.2.1, r.2.2) = roundDigest r := rfl
    have hfilter :
        (E.drop (E.length - cap)).filter
          (fun f => f.1 ≠ roundDigest (r.1, r.2.1, r.2.2)) =
        E.drop (E.length - cap) := by
      apply List.filter_eq_self.mpr
      intro x hx
      have hxE : x ∈ E := List.mem_of_mem_drop hx
      have hx1 : x.1 ∈ E.map Prod.fst := List.mem_map_of_mem Prod.fst hxE
      have hne : roundDigest r ∉ E.map Prod.fst := hfresh _ (by simp)
      exact decide_eq_true fun hEq => hne (hdig ▸ hEq ▸ hx1)
    have hstep :
        _write_file cap (E.drop (E.length - cap))
            (roundDigest (r.1, r.2.1, r.2.2)) (roundBlob (r.1, r.2.1, r.2.2)) =
          (E ++ [roundEntry r]).drop (E.length + 1 - cap) := by
      unfold _write_file _prune_archives
      rw [hfilter]
      have hEntry : (roundDigest (r.1, r.2.1, r.2.2), roundBlob (r.1, r.2.1, r.2.2)) =
          roundEntry r := rfl
      rw [hEntry]
      rw [show E.drop (E.length - cap) ++ [roundEntry r] =
            (E ++ [roundEntry r]).drop (E.length - cap) from
          (List.drop_append_of_le_length (by omega)).symm]
      rw [List.drop_drop]
      congr 1
      simp only [List.length_drop, List.length_append, List.length_cons,
        List.length_nil]
      omega
    rw [hstep]
    have hnd' : (rs.map roundDigest).Nodup :=
      (List.nodup_cons.mp (by simpa using hnd)).2
    have hhead : roundDigest r ∉ rs.map roundDigest :=
      (List.nodup_cons.mp (by simpa using hnd)).1
    have hfresh' : ∀ d ∈ rs.map roundDigest,
        d ∉ (E ++ [roundEntry r]).map Prod.fst := by
      intro d hd hmem
      rw [List.map_append] at hmem
      rcases List.mem_append.mp hmem with h | h
      · exact hfresh d (by rw [List.map_cons]; exact List.mem_cons_of_mem _ hd) h
      · have hd' : d = roundDigest r := by simpa [roundEntry] using h
        exact hhead (hd' ▸ hd)
    have hIH := log_rounds_files cap rs (E ++ [roundEntry r])
      (_combine_hash root (roundDigest (r.1, r.2.1, r.2.2))) hnd' hfresh'
    rw [show (E ++ [roundEntry r]).length = E.length + 1 from by simp] at hIH
    rw [hIH, List.append_assoc]
    congr 1
    simp only [List.length_cons]
    omega

/-! ## Claim theorems: MerkleLogger -/

/-- C8: before any round is logged, `get_current_root()` returns the empty
sentinel `""`; and every `log_round` sets the new current root to
`sha256(previous_root ++ content_hash)` where the content hash is the same
256-bit digest (SHA-256, hex encoded) applied to the record's serialized
bytes. -/
theorem C8_root_initial_and_step :
    MerkleLogger.init.get_current_root = "" ∧
    ∀ (cap : Nat) (st : MerkleLogger) (now_iso : String) (context : Json)
      (results : List Json) (write_ok : Bool),
      ((MerkleLogger.log_round cap st now_iso context results
          write_ok).1).get_current_root =
        sha256hex (utf8 (st.get_current_root ++
          sha256hex (utf8 (json_dumps_sorted
            (roundPayload now_iso context results))))) := by
  refine ⟨rfl, fun cap st now_iso context results write_ok => ?_⟩
  cases write_ok <;> rfl

/-- C9: when persisting the serialized entry fails (the underlying file
write raises), `log_round` does not swallow the failure: it surfaces to the
caller as a raised hard failure instead of a returned root. -/
theorem C9_persistence_failure_surfaces (cap : Nat) (st : MerkleLogger)
    (now_iso : String) (context : Json) (results : List Json) :
    (MerkleLogger.log_round cap st now_iso context results false).2 =
      Except.error () :=
  rfl

/-- C10: `log_round` is not atomic on persistence failure — when the file
write raises, the in-memory current root has already been advanced to fold
in the record's digest, while storage is left unchanged, so afterwards
`get_current_root()` returns a root covering a record absent from
storage. -/
theorem C10_root_advanced_on_failed_write (cap : Nat) (st : MerkleLogger)
    (now_iso : String) (context : Json) (results : List Json) :
    ((MerkleLogger.log_round cap st now_iso context results
        false).1).get_current_root =
      _combine_hash st.get_current_root
        (roundDigest (now_iso, context, results)) ∧
    ((MerkleLogger.log_round cap st now_iso context results false).1).files =
      st.files :=
  ⟨rfl, rfl⟩

/-- C1 (counterexample): two fresh MerkleLoggers log the same logical
record content `(context = "c", results = [])` once each, but at wall-clock
instants one second apart; the chain roots differ, because `log_round`
stamps `datetime.utcnow().isoformat()` into the hashed payload. So the
root is NOT a deterministic function of the logical record content
alone. -/
theorem C1_counterexample :
    (MerkleLogger.log_round 5 MerkleLogger.init demoRound1.1 demoRound1.2.1
        demoRound1.2.2 true).1.get_current_root ≠
    (MerkleLogger.log_round 5 MerkleLogger.init demoRound2.1 demoRound2.2.1
        demoRound2.2.2 true).1.get_current_root := by
  decide

/-- C1 (amended): `log_round` is deterministic in the logical record
content together with the utcnow timestamp it stamps into the payload:
replaying the same sequence of (timestamp, context, results) records on
fresh instances — even with different archive caps — reproduces the same
chain root, namely the pure `_combine_hash` fold over the records'
digests. -/
theorem C1_amended_determinism (cap cap' : Nat)
    (rounds : List (String × Json × List Json)) :
    (MerkleLogger.log_rounds cap MerkleLogger.init rounds).get_current_root =
      chainRoot rounds ∧
    (MerkleLogger.log_rounds cap MerkleLogger.init rounds).get_current_root =
      (MerkleLogger.log_rounds cap'
        MerkleLogger.init rounds).get_current_root := by
  have h1 := log_rounds_root cap rounds MerkleLogger.init
  have h2 := log_rounds_root cap' rounds MerkleLogger.init
  exact ⟨h1, h1.trans h2.symm⟩

/-- C7: from a fresh logger with positive archive cap, after logging
`cap + k` rounds (k > 0, content digests pairwise distinct), the persisted
entries are exactly the `cap` most-recently-written ones (the oldest `k`
were deleted first, in modification-time order); moreover after every
individual `log_round` write the persisted-entry count is at or below the
cap. -/
theorem C7_archive_cap (cap k : Nat) (hk : 0 < k)
    (rounds : List (String × Json × List Json))
    (hlen : rounds.length = cap + k)
    (hnd : (rounds.map roundDigest).Nodup) :
    (MerkleLogger.log_rounds cap MerkleLogger.init rounds).files =
      (rounds.map roundEntry).drop k ∧
    (MerkleLogger.log_rounds cap MerkleLogger.init rounds).files.length =
      cap ∧
    ∀ (st : MerkleLogger) (now_iso : String) (context : Json)
      (results : List Json),
      ((MerkleLogger.log_round cap st now_iso context results
          true).1).files.length ≤ cap := by
  have h := log_rounds_files cap rounds [] "" hnd (by simp)
  rw [show (⟨List.drop (List.length ([] : List (String × List Nat)) - cap) [],
        ""⟩ : MerkleLogger) = MerkleLogger.init from by
      simp [MerkleLogger.init]] at h
  simp only [List.nil_append, List.length_nil, Nat.zero_add, hlen] at h
  have hk' : cap + k - cap = k := by omega
  rw [hk'] at h
  refine ⟨h, ?_, fun st now_iso context results => log_round_files_le _ _ _ _ _⟩
  rw [h]
  simp only [List.length_drop, List.length_map, hlen]
  omega

/-- C7 witness: cap 1, k 1, and the two concrete demonstration rounds
(whose digests are distinct): after both writes only the second round's
entry remains. -/
theorem C7_archive_cap_witness :
    (0 < 1 ∧ demoRounds.length = 1 + 1 ∧
      (demoRounds.map roundDigest).Nodup) ∧
    (MerkleLogger.log_rounds 1 MerkleLogger.init demoRounds).files =
      (demoRounds.map roundEntry).drop 1 ∧
    (MerkleLogger.log_rounds 1 MerkleLogger.init demoRounds).files.length =
      1 :=
  ⟨⟨by decide, by decide, by decide⟩,
   (C7_archive_cap 1 1 (by decide) demoRounds (by decide) (by decide)).1,
   (C7_archive_cap 1 1 (by decide) demoRounds (by decide) (by decide)).2.1⟩

/-! ## Lemmas about CircuitBreaker -/

lemma fail_seq_nil (b : CircuitBreaker) : b.fail_seq [] = b := rfl

lemma fail_seq_cons (b : CircuitBreaker) (t : ℚ) (ts : List ℚ) :
    b.fail_seq (t :: ts) = (b.on_failure t).fail_seq ts := rfl

lemma on_failure_counts (now : ℚ) (b : CircuitBreaker) :
    (b.on_failure now).failures = b.failures + 1 ∧
    (b.on_failure now).last_failure = now ∧
    (b.on_failure now).max_failures = b.max_failures ∧
    (b.on_failure now).timeout = b.timeout := by
  simp only [CircuitBreaker.on_failure]
  split <;> exact ⟨rfl, rfl, rfl, rfl⟩

lemma fail_seq_invariants : ∀ (ts : List ℚ) (b : CircuitBreaker),
    (b.fail_seq ts).failures = b.failures + ts.length ∧
    (b.fail_seq ts).max_failures = b.max_failures ∧
    (b.fail_seq ts).timeout = b.timeout
  | [], b => by simp [fail_seq_nil]
  | t :: ts, b => by
    obtain ⟨hf, _, hm, hτ⟩ := on_failure_counts t b
    obtain ⟨hf', hm', hτ'⟩ := fail_seq_invariants ts (b.on_failure t)
    rw [fail_seq_cons]
    refine ⟨?_, hm'.trans hm, hτ'.trans hτ⟩
    rw [hf', hf, List.length_cons]
    omega

lemma fail_seq_last : ∀ (ts : List ℚ) (b : CircuitBreaker) (h : ts ≠ []),
    (b.fail_seq ts).last_failure = ts.getLast h
  | [], _, h => absurd rfl h
  | [t], b, _ => by
    rw [fail_seq_cons, fail_seq_nil]
    exact (on_failure_counts t b).2.1
  | t :: t' :: ts, b, _ => by
    rw [fail_seq_cons, fail_seq_last (t' :: ts) (b.on_failure t) (by simp)]
    rfl

lemma fail_seq_open : ∀ (ts : List ℚ) (b : CircuitBreaker), ts ≠ [] →
    b.max_failures ≤ b.failures + ts.length →
    (b.fail_seq ts).state = CBState.OPEN
  | [], _, h, _ => absurd rfl h
  | [t], b, _, hle => by
    rw [fail_seq_cons, fail_seq_nil]
    simp only [CircuitBreaker.on_failure]
    rw [if_pos (by simpa using hle)]
  | t :: t' :: ts, b, _, hle => by
    rw [fail_seq_cons]
    refine fail_seq_open (t' :: ts) (b.on_failure t) (by simp) ?_
    obtain ⟨hf, _, hm, _⟩ := on_failure_counts t b
    rw [hf, hm]
    simp only [List.length_cons] at hle ⊢
    omega

/-! ## Claim theorem: CircuitBreaker -/

/-- C5: with `max_failures = 3`, after any sequence of 3 or more
`on_failure` calls the breaker is OPEN with `last_failure` the time of the
last call; any `can_execute` at most `timeout` seconds after that failure
returns false and leaves the breaker unchanged, and the first
`can_execute` strictly more than `timeout` seconds after it returns true
and transitions the state to HALF_OPEN. -/
theorem C5_breaker_open_halfopen (τ : ℚ) (ts : List ℚ)
    (h3 : 3 ≤ ts.length) :
    ((CircuitBreaker.init 3 τ).fail_seq ts).state = CBState.OPEN ∧
    (∀ h : ts ≠ [],
      ((CircuitBreaker.init 3 τ).fail_seq ts).last_failure = ts.getLast h) ∧
    (∀ now : ℚ,
      now - ((CircuitBreaker.init 3 τ).fail_seq ts).last_failure ≤ τ →
      CircuitBreaker.can_execute now ((CircuitBreaker.init 3 τ).fail_seq ts) =
        (false, (CircuitBreaker.init 3 τ).fail_seq ts)) ∧
    (∀ now : ℚ,
      τ < now - ((CircuitBreaker.init 3 τ).fail_seq ts).last_failure →
      (CircuitBreaker.can_execute now
          ((CircuitBreaker.init 3 τ).fail_seq ts)).1 = true ∧
      ((CircuitBreaker.can_execute now
          ((CircuitBreaker.init 3 τ).fail_seq ts)).2).state =
        CBState.HALF_OPEN) := by
  have hne : ts ≠ [] := by
    cases ts
    · simp at h3
    · simp
  have hopen := fail_seq_open ts (CircuitBreaker.init 3 τ) hne
    (by simp [CircuitBreaker.init]; omega)
  have hτ : ((CircuitBreaker.init 3 τ).fail_seq ts).timeout = τ :=
    (fail_seq_invariants ts (CircuitBreaker.init 3 τ)).2.2
  refine ⟨hopen, fun h => fail_seq_last ts _ h, ?_, ?_⟩
  · intro now hle
    unfold CircuitBreaker.can_execute
    rw [if_pos hopen, if_neg]
    rw [hτ]
    simpa using hle
  · intro now hgt
    unfold CircuitBreaker.can_execute
    rw [if_pos hopen, if_pos (by rw [hτ]; simpa using hgt)]
    exact ⟨rfl, rfl⟩

/-- C5 witness: three failures at times 1, 2, 3 and timeout 60: the
breaker is OPEN; `can_execute` at time 63 (60 s not yet exceeded) refuses
and changes nothing; at time 64 it allows and goes HALF_OPEN. -/
theorem C5_breaker_open_halfopen_witness :
    3 ≤ ([(1 : ℚ), 2, 3]).length ∧
    ((CircuitBreaker.init 3 60).fail_seq [(1 : ℚ), 2, 3]).state =
      CBState.OPEN ∧
    CircuitBreaker.can_execute 63
        ((CircuitBreaker.init 3 60).fail_seq [(1 : ℚ), 2, 3]) =
      (false, (CircuitBreaker.init 3 60).fail_seq [(1 : ℚ), 2, 3]) ∧
    (CircuitBreaker.can_execute 64
        ((CircuitBreaker.init 3 60).fail_seq [(1 : ℚ), 2, 3])).1 = true ∧
    ((CircuitBreaker.can_execute 64
        ((CircuitBreaker.init 3 60).fail_seq [(1 : ℚ), 2, 3])).2).state =
      CBState.HALF_OPEN := by
  obtain ⟨h1, h2, h3, h4⟩ :=
    C5_breaker_open_halfopen 60 [(1 : ℚ), 2, 3] (by simp)
  have hl : ((CircuitBreaker.init 3 60).fail_seq [(1 : ℚ), 2, 3]).last_failure =
      3 := by
    rw [h2 (by simp)]
    rfl
  refine ⟨by simp, h1, h3 63 (by rw [hl]; norm_num), ?_, ?_⟩
  · exact (h4 64 (by rw [hl]; norm_num)).1
  · exact (h4 64 (by rw [hl]; norm_num)).2

/-! ## Lemmas about execute_round -/

lemma classify_model (n : String) (r : Option TaskOutcome) :
    (classifyResponse n r).model = n := by
  cases r with
  | none => rfl
  | some o => cases o <;> rfl

lemma zip_classify_models : ∀ (names : List String)
    (rs : List (Option TaskOutcome)), rs.length = names.length →
    ((names.zip rs).map fun p => (classifyResponse p.1 p.2).model) = names
  | [], _, _ => rfl
  | _ :: _, [], h => by simp at h
  | n :: ns, r :: rs, h => by
    have ih := zip_classify_models ns rs (by simpa using h)
    simp only [List.zip_cons_cons, List.map_cons, classify_model] at ih ⊢
    rw [ih]

lemma zip_replicate_timeout : ∀ names : List String,
    ((names.zip (List.replicate names.length
        (none : Option TaskOutcome))).map
      fun p => classifyResponse p.1 p.2) = names.map _handle_timeout
  | [] => rfl
  | n :: ns => by
    simp only [List.length_cons, List.replicate_succ, List.zip_cons_cons,
      List.map_cons]
    rw [zip_replicate_timeout ns]
    rfl

/-! ## Claim theorems: execute_round -/

/-- C6: a dispatch round over N configured clients yields exactly N
results, one per client and in the configured client order (the i-th
result carries the i-th client's name), no matter how many of the client
tasks succeeded, raised, or were still pending at the deadline. -/
theorem C6_one_result_per_client (names : List String)
    (completed : List (Option TaskOutcome))
    (hlen : completed.length = names.length) :
    (execute_round names completed).length = names.length ∧
    (execute_round names completed).map RoundResult.model = names := by
  unfold execute_round
  set rs := if completed.any (fun r => r.isNone) then
      List.replicate names.length (none : Option TaskOutcome)
    else completed with hrs
  have hlen' : rs.length = names.length := by
    rw [hrs]
    split
    · simp
    · exact hlen
  constructor
  · simp [hlen']
  · rw [List.map_map]
    exact zip_classify_models names rs hlen'

/-- C6 witness: two clients, one successful response and one raised
error — two results, in configured order. -/
theorem C6_one_result_per_client_witness :
    (([some (TaskOutcome.ok ⟨"ok", 10⟩),
       some (TaskOutcome.exn "ValueError" "boom")] :
        List (Option TaskOutcome)).length =
      (["a", "b"] : List String).length) ∧
    ((execute_round ["a", "b"]
        [some (TaskOutcome.ok ⟨"ok", 10⟩),
         some (TaskOutcome.exn "ValueError" "boom")]).length =
      (["a", "b"] : List String).length ∧
    (execute_round ["a", "b"]
        [some (TaskOutcome.ok ⟨"ok", 10⟩),
         some (TaskOutcome.exn "ValueError" "boom")]).map
      RoundResult.model = ["a", "b"]) :=
  ⟨rfl, C6_one_result_per_client ["a", "b"]
    [some (TaskOutcome.ok ⟨"ok", 10⟩),
     some (TaskOutcome.exn "ValueError" "boom")] rfl⟩

/-- C3 (counterexample): the round timeout elapses while client "b" is
still pending, but client "a" has already completed successfully; the
source replaces the whole response list by `[None] * len(tasks)`, so BOTH
clients — including the completed one — are reported as timeout failures,
refuting "calls that already completed keep their own outcome". -/
theorem C3_counterexample :
    execute_round ["a", "b"] [some (TaskOutcome.ok ⟨"ok", 10⟩), none] =
      [_handle_timeout "a", _handle_timeout "b"] ∧
    (execute_round ["a", "b"]
        [some (TaskOutcome.ok ⟨"ok", 10⟩), none]).map RoundResult.success =
      [false, false] :=
  ⟨rfl, rfl⟩

/-- C3 (amended): when the overall round timeout elapses before all
endpoint calls finish, `execute_round` still returns a result list (the
TimeoutError is caught, the round never raises), but EVERY client — the
still-pending ones and those that already completed — is reported as a
per-endpoint timeout result with success = false, error = "timeout" and
latency 0. -/
theorem C3_amended_all_timeout (names : List String)
    (completed : List (Option TaskOutcome))
    (hpending : completed.any (fun r => r.isNone) = true) :
    execute_round names completed = names.map _handle_timeout := by
  unfold execute_round
  rw [if_pos hpending]
  exact zip_replicate_timeout names

/-- C3 witness: the amended statement at the counterexample's input. -/
theorem C3_amended_all_timeout_witness :
    (([some (TaskOutcome.ok ⟨"ok", 10⟩), none] :
        List (Option TaskOutcome)).any (fun r => r.isNone) = true) ∧
    execute_round ["a", "b"] [some (TaskOutcome.ok ⟨"ok", 10⟩), none] =
      (["a", "b"] : List String).map _handle_timeout :=
  ⟨rfl, C3_amended_all_timeout ["a", "b"]
    [some (TaskOutcome.ok ⟨"ok", 10⟩), none] rfl⟩

/-! ## Claim theorems: StreamManager health snapshot -/

/-- C4 (counterexample): `get_health_metrics` is not a pure read — with
`last_message = 1`, `total_downtime = 0` and the call at time 100, the
freshly computed 69 s downtime is added to `health.total_downtime`, so the
component state after the call differs from the state before it. -/
theorem C4_counterexample :
    ((StreamManager.get_health_metrics 100
        ⟨⟨1, 5, 0, 0, 0⟩, CircuitBreaker.init 5 60⟩).2).health.total_downtime
      = 69 ∧
    (StreamManager.get_health_metrics 100
        ⟨⟨1, 5, 0, 0, 0⟩, CircuitBreaker.init 5 60⟩).2 ≠
      (⟨⟨1, 5, 0, 0, 0⟩, CircuitBreaker.init 5 60⟩ : StreamManager) := by
  have h69 : (0 : ℚ) ⊔ (100 - 1 - 30) = 69 := by norm_num
  constructor
  · simp [StreamManager.get_health_metrics, h69]
  · intro h
    have h' := congrArg (fun sm : StreamManager => sm.health.total_downtime) h
    simp [StreamManager.get_health_metrics, h69] at h'

/-- C4 (amended): `get_health_metrics` leaves the circuit breaker and the
`last_message`, `message_count`, `error_count` and `reconnect_count`
fields unchanged and reads them as value copies, but it is not fully
read-only: it adds the reported `current_downtime` to
`health.total_downtime`, which therefore changes whenever `last_message`
is set and more than the 30 s grace period has elapsed since it. -/
theorem C4_amended_snapshot_effect (now : ℚ) (sm : StreamManager) :
    ((StreamManager.get_health_metrics now sm).2).circuit_breaker =
      sm.circuit_breaker ∧
    ((StreamManager.get_health_metrics now sm).2).health.last_message =
      sm.health.last_message ∧
    ((StreamManager.get_health_metrics now sm).2).health.message_count =
      sm.health.message_count ∧
    ((StreamManager.get_health_metrics now sm).2).health.error_count =
      sm.health.error_count ∧
    ((StreamManager.get_health_metrics now sm).2).health.reconnect_count =
      sm.health.reconnect_count ∧
    ((StreamManager.get_health_metrics now sm).2).health.total_downtime =
      sm.health.total_downtime +
        ((StreamManager.get_health_metrics now sm).1).current_downtime := by
  unfold StreamManager.get_health_metrics
  split <;> simp

/-! ## Claim theorem: ModelClient latency accounting -/

/-- C2 (the code at the failing input): the claim's retry scenario holds
(after 2 transient failures then 1 success with `max_retries = 3`:
`total_calls = 3`, `successful_calls = 1`, `error_count = 2` and
`avg_latency` = the successful call's latency) — but the general
running-average formula does not: after two successful calls with
latencies 100 and 50, the source leaves `avg_latency = 50`, because
`successful_calls` is incremented only AFTER `_update_latency` runs, while
the claimed formula (with `successful_calls` counting the just-completed
success) gives (100·(2−1) + 50)/2 = 75. -/
theorem C2_running_average_divergence :
    (((ModelClient.generate 3 (ModelClient.init "m") 0
        [none, none, some ("ok", 100)]).1).total_calls = 3 ∧
     ((ModelClient.generate 3 (ModelClient.init "m") 0
        [none, none, some ("ok", 100)]).1).successful_calls = 1 ∧
     ((ModelClient.generate 3 (ModelClient.init "m") 0
        [none, none, some ("ok", 100)]).1).error_count = 2 ∧
     ((ModelClient.generate 3 (ModelClient.init "m") 0
        [none, none, some ("ok", 100)]).1).avg_latency = 100) ∧
    ((ModelClient.generate 3 ((ModelClient.generate 3 (ModelClient.init "m")
        0 [some ("ok", 100)]).1) 0
        [some ("ok", 50)]).1).successful_calls = 2 ∧
    ((ModelClient.generate 3 ((ModelClient.generate 3 (ModelClient.init "m")
        0 [some ("ok", 100)]).1) 0 [some ("ok", 50)]).1).avg_latency = 50 ∧
    (((ModelClient.generate 3 (ModelClient.init "m") 0
          [some ("ok", 100)]).1).avg_latency * ((2 : ℚ) - 1) + 50) / 2 =
      75 ∧
    ((ModelClient.generate 3 ((ModelClient.generate 3 (ModelClient.init "m")
        0 [some ("ok", 100)]).1) 0 [some ("ok", 50)]).1).avg_latency ≠
      (((ModelClient.generate 3 (ModelClient.init "m") 0
          [some ("ok", 100)]).1).avg_latency * ((2 : ℚ) - 1) + 50) / 2 := by
  norm_num [ModelClient.generate, ModelClient._update_latency,
    ModelClient.init]
